import Mathlib

/-!
Verification of the result normalization and deduplication pipeline of
`src/api.py` (Bolagsplatsen scraper API).

Strings are modelled as lists of characters (`Str`).  Python string
primitives (`str.lower`, `str.capitalize`, `str.title`, `str.strip`,
`str.replace`, `int(...)`, `round(...)`, the `{:,}` format) are embedded
character by character.  The case mappings cover ASCII and the Latin-1
letter block (the character set exercised by the translation table in
`api.py`); exotic Unicode case expansions (ß, µ, ÿ, İ) are outside the
model's scope and do not occur in any input considered here.
-/

abbrev Str := List Char

/-- Python regex `\s` / `str.strip` whitespace, restricted to the ASCII
whitespace characters (the only ones that occur in the modelled inputs). -/
def pyIsSpace (c : Char) : Bool :=
  c = ' ' || c = '\t' || c = '\n' || c = '\x0d' || c = '\x0b' || c = '\x0c'

/-- Python `str.lower`, character-wise, for ASCII and Latin-1 letters. -/
def pyLowerChar (c : Char) : Char :=
  if 'A' ≤ c && c ≤ 'Z' then Char.ofNat (c.toNat + 32)
  else if 'À' ≤ c && c ≤ 'Þ' && c ≠ '×' then Char.ofNat (c.toNat + 32)
  else c

/-- Python `str.upper` / first-character titlecasing, character-wise, for
ASCII and Latin-1 letters. -/
def pyUpperChar (c : Char) : Char :=
  if 'a' ≤ c && c ≤ 'z' then Char.ofNat (c.toNat - 32)
  else if 'à' ≤ c && c ≤ 'þ' && c ≠ '÷' then Char.ofNat (c.toNat - 32)
  else c

/-- A cased character in the modelled (ASCII + Latin-1) range. -/
def pyIsCased (c : Char) : Bool :=
  ('a' ≤ c && c ≤ 'z') || ('A' ≤ c && c ≤ 'Z') ||
  ('à' ≤ c && c ≤ 'þ' && c ≠ '÷') || ('À' ≤ c && c ≤ 'Þ' && c ≠ '×')

/-- Python `str.capitalize`: titlecase the first character and lowercase
every character after it. -/
def pyCapitalize : Str → Str
  | [] => []
  | c :: cs => pyUpperChar c :: cs.map pyLowerChar

/-- Python `str.title`: a character is uppercased when the previous
character is not cased, lowercased otherwise (the boolean argument records
whether the previous character was cased). -/
def pyTitleGo : Bool → Str → Str
  | _, [] => []
  | prevCased, c :: cs =>
    (if pyIsCased c then (if prevCased then pyLowerChar c else pyUpperChar c) else c)
      :: pyTitleGo (pyIsCased c) cs

/-- Python `str.title`. -/
def pyTitle (s : Str) : Str := pyTitleGo false s

/-- Python `str.strip` (no argument): drop leading and trailing whitespace. -/
def pyStrip (s : Str) : Str :=
  ((s.dropWhile pyIsSpace).reverse.dropWhile pyIsSpace).reverse

/-- Worker for Python `str.replace`: scan left to right, replacing each
non-overlapping occurrence of `pat`.  The fuel argument (instantiated with
the length of the string) only serves to make the recursion structural;
with a non-empty pattern each step consumes at least one character. -/
def pyReplaceGo : Nat → Str → Str → Str → Str
  | 0, s, _, _ => s
  | _ + 1, [], _, _ => []
  | fuel + 1, c :: rest, pat, rep =>
    if pat.isPrefixOf (c :: rest) then
      rep ++ pyReplaceGo fuel (List.drop pat.length (c :: rest)) pat rep
    else
      c :: pyReplaceGo fuel rest pat rep

/-- Python `str.replace(pat, rep)` (all occurrences).  The empty-pattern
case inserts `rep` at every position, as Python does; the pipeline only
ever calls `replace` with non-empty patterns. -/
def pyReplace (s pat rep : Str) : Str :=
  if pat = [] then rep ++ s.foldr (fun c acc => c :: (rep ++ acc)) []
  else pyReplaceGo s.length s pat rep

/-- The module-level `TRANSLATIONS` dictionary of `api.py`, in its source
(insertion) order. -/
def TRANSLATIONS : List (Str × Str) :=
  [("företag".data, "company".data), ("verksamhet".data, "business".data),
   ("firma".data, "firm".data), ("omsättning".data, "revenue".data),
   ("resultat".data, "profit".data), ("vinst".data, "profit".data),
   ("förlust".data, "loss".data), ("intäkter".data, "income".data),
   ("kostnader".data, "costs".data),
   ("handel".data, "trade".data), ("tillverkning".data, "manufacturing".data),
   ("tjänster".data, "services".data), ("hotell".data, "hotel".data),
   ("restaurang".data, "restaurant".data), ("e-handel".data, "e-commerce".data),
   ("bygg".data, "construction".data), ("transport".data, "transport".data),
   ("hälsa".data, "health".data), ("utbildning".data, "education".data),
   ("finans".data, "finance".data), ("fastighet".data, "real estate".data),
   ("stockholm".data, "Stockholm".data), ("göteborg".data, "Gothenburg".data),
   ("malmö".data, "Malmö".data), ("uppsala".data, "Uppsala".data),
   ("västerås".data, "Västerås".data), ("örebro".data, "Örebro".data),
   ("lönsamt".data, "profitable".data), ("olönsamt".data, "unprofitable".data),
   ("nytt".data, "new".data), ("etablerat".data, "established".data),
   ("växande".data, "growing".data), ("stabil".data, "stable".data),
   ("till".data, "for".data), ("salu".data, "sale".data),
   ("köp".data, "buy".data), ("sälj".data, "sell".data),
   ("bra".data, "good".data), ("mycket".data, "very".data),
   ("stor".data, "large".data), ("liten".data, "small".data)]

/-- Fold a substitution table over a string, in table order: each later
rule acts on the text produced by the earlier rules. -/
def applySubs (tbl : List (Str × Str)) (s : Str) : Str :=
  tbl.foldl (fun acc p => pyReplace acc p.1 p.2) s

/-- `translate_text` of `api.py`: empty input is returned unchanged;
otherwise lowercase, chain all `TRANSLATIONS` replacements, then apply
Python `str.capitalize`. -/
def translate_text (t : Str) : Str :=
  if t = [] then t
  else pyCapitalize (applySubs TRANSLATIONS (t.map pyLowerChar))


/-- A character matched by the regex class `[\d\s]` of
`re.findall(r'[\d\s]+', ...)` in `convert_currency`. -/
def isDigitOrSpace (c : Char) : Bool := c.isDigit || pyIsSpace c

/-- Worker for `findRuns`: the accumulator holds the current (reversed)
run of digit/whitespace characters. -/
def runsGo : Str → Str → List Str
  | [], acc => if acc = [] then [] else [acc.reverse]
  | c :: cs, acc =>
    if isDigitOrSpace c then runsGo cs (c :: acc)
    else if acc = [] then runsGo cs [] else acc.reverse :: runsGo cs []

/-- `re.findall(r'[\d\s]+', s)`: the maximal runs of digit-or-whitespace
characters of `s`, in order. -/
def findRuns (s : Str) : List Str := runsGo s []

/-- Decimal value of a digit string (most significant digit first). -/
def digitsToNat (s : Str) : Nat :=
  s.foldl (fun a c => 10 * a + (c.toNat - 48)) 0

/-- Python `int(str)`, restricted to the strings that can reach it in
`convert_currency` (digits and whitespace only): leading and trailing
whitespace is stripped; the rest must be a non-empty digit string,
otherwise `int` raises `ValueError` (modelled as `none`).  Signs and
underscores cannot occur in these inputs. -/
def pyInt? (s : Str) : Option Nat :=
  let t := pyStrip s
  if t ≠ [] && t.all Char.isDigit then some (digitsToNat t) else none

/-- Python `round(x)` for `x = n / d` with `n d : Nat`, `d ≠ 0`:
round half to even (banker's rounding). -/
def pyRoundDiv (n d : Nat) : Nat :=
  let q := n / d
  let r := n % d
  if 2 * r < d then q
  else if d < 2 * r then q + 1
  else if q % 2 = 0 then q else q + 1

/-- Worker for the `{:,}` format: processes the digit list least
significant digit first, inserting `,` before every fourth, seventh, ...
digit from the right. -/
def commaGo : Str → Nat → Str
  | [], _ => []
  | c :: cs, i =>
    if i % 3 = 0 && i ≠ 0 then ',' :: c :: commaGo cs (i + 1)
    else c :: commaGo cs (i + 1)

/-- Python `f"{n:,}"` for a natural number: decimal digits with a comma
between every group of three, counted from the right. -/
def commaFmt (n : Nat) : Str :=
  (commaGo (Nat.toDigits 10 n).reverse 0).reverse

/-- `convert_currency` of `api.py`.  Empty input is returned unchanged;
the maximal digit/whitespace runs are extracted (`re.findall`) — if there
are none the input is returned unchanged; the runs are joined and only
the space characters are removed (`.replace(' ', '')`); if `int` fails on
the result (`ValueError`) the input is returned unchanged; otherwise the
value is multiplied by the rate `SEK_TO_USD = 0.095` and rounded
(`round(price * 0.095)`), modelled exactly as round-half-to-even of
`19 * price / 200`: for every price below `10^13` the IEEE-double product
`price * 0.095` rounds to the same integer, since the exact product is a
multiple of `1/200` and the accumulated relative error of the two float
roundings is below `1.3e-16`, far smaller than the distance `1/200` to
the nearest half-integer (and at an exact half-integer the float product
is exactly representable and Python's banker's rounding applies). -/
def convert_currency (s : Str) : Str :=
  if s = [] then s
  else if findRuns s = [] then s
  else
    match pyInt? (pyReplace (findRuns s).flatten [' '] []) with
    | none => s
    | some price => '$' :: commaFmt (pyRoundDiv (19 * price) 200)


/-- One details section of the output (`{"infoSummary": ..., "infoItems": [...]}`). -/
structure DetailSection where
  infoSummary : Str
  infoItems : List Str
deriving DecidableEq, Repr

/-- One raw scraped item, as consumed by the transformation loop of
`run_scraper`.  The Python item is a single dict; its string-valued keys
are modelled by the association list `fields` (first match wins, keys
unique in practice), and the two non-string-valued keys
(`structured_content`, an insertion-ordered dict of string pairs, and
`financial_details`, a list of strings) are modelled separately, `none`
meaning the key is absent. -/
structure RawRecord where
  fields : List (Str × Str)
  structured_content : Option (List (Str × Str))
  financial_details : Option (List Str)
deriving DecidableEq, Repr

/-- First-match association-list lookup (Python dict access). -/
def lookupA : List (Str × Str) → Str → Option Str
  | [], _ => none
  | (k, v) :: rest, key => if k = key then some v else lookupA rest key

/-- `item.get(key)` (default `None`). -/
def rawGet (r : RawRecord) (k : Str) : Option Str := lookupA r.fields k

/-- `item.get(key, '')`. -/
def rawGetD (r : RawRecord) (k : Str) : Str := (rawGet r k).getD []

/-- The output listing built by the transformation loop of `run_scraper`. -/
structure NormalizedListing where
  title : Str
  company : Str
  location : Str
  price : Str
  category : Str
  industry : Str
  link : Str
  details : List DetailSection
  business_name : Str
  contact_name : Str
  phone_number : Str
deriving DecidableEq, Repr

/-- `item.get('full_description') or item.get('description', '')`:
a non-empty `full_description` wins, otherwise `description` (Python
`or` falls through on the falsy values `None` and `''`). -/
def descriptionText (r : RawRecord) : Str :=
  let fd := rawGetD r "full_description".data
  if fd ≠ [] then fd else rawGetD r "description".data

/-- The "Business Description" section, present only for a non-empty
description text. -/
def descSections (r : RawRecord) : List DetailSection :=
  let d := descriptionText r
  if d ≠ [] then [⟨"Business Description".data, [translate_text d]⟩] else []

/-- The `section_names` dict of `run_scraper`, in source order. -/
def SECTION_NAMES : List (Str × Str) :=
  [("company_brief".data, "Company Overview".data),
   ("potential".data, "Growth Potential".data),
   ("reason_for_sale".data, "Reason for Sale".data),
   ("price_idea".data, "Pricing Details".data),
   ("summary".data, "Summary".data),
   ("description".data, "Description".data),
   ("business_activity".data, "Business Activity".data),
   ("market".data, "Market Information".data),
   ("competition".data, "Competitive Situation".data)]

/-- `section_names.get(section_key, section_key.replace('_', ' ').title())`. -/
def sectionTitle (k : Str) : Str :=
  match lookupA SECTION_NAMES k with
  | some t => t
  | none => pyTitle (pyReplace k ['_'] [' '])

/-- The structured-content loop of `run_scraper`: one section per entry
whose value is non-empty (truthy) and whose stripped length exceeds 20,
in the dict's iteration order. -/
def structuredSections : List (Str × Str) → List DetailSection
  | [] => []
  | (k, v) :: rest =>
    if v ≠ [] && 20 < (pyStrip v).length then
      ⟨sectionTitle k, [translate_text v]⟩ :: structuredSections rest
    else structuredSections rest

/-- `if item.get('structured_content'): ...` — an absent (or empty,
falsy) dict contributes no sections. -/
def scSections (r : RawRecord) : List DetailSection :=
  match r.structured_content with
  | some kvs => structuredSections kvs
  | none => []

/-- The `financial_items` list of `run_scraper`: one line per truthy
field, in the fixed source order, then one translated line per
`financial_details` entry. -/
def financialItems (r : RawRecord) : List Str :=
  (let v := rawGetD r "revenue".data
   if v ≠ [] then ["Revenue: ".data ++ translate_text v] else []) ++
  (let v := rawGetD r "detailed_revenue".data
   if v ≠ [] then ["Detailed Revenue: ".data ++ translate_text v] else []) ++
  (let v := rawGetD r "profit_status".data
   if v ≠ [] then ["Profit Status: ".data ++ translate_text v] else []) ++
  (let v := rawGetD r "detailed_profit".data
   if v ≠ [] then ["Detailed Profit: ".data ++ translate_text v] else []) ++
  (let v := rawGetD r "price".data
   if v ≠ [] then ["Asking Price: ".data ++ convert_currency v] else []) ++
  (match r.financial_details with
   | some ds => ds.map translate_text
   | none => [])

/-- The "Financial Information" section, present only if some line was
produced. -/
def finSections (r : RawRecord) : List DetailSection :=
  let items := financialItems r
  if items ≠ [] then [⟨"Financial Information".data, items⟩] else []

/-- The `business_items` list (`Employees: ...`). -/
def businessItems (r : RawRecord) : List Str :=
  let v := rawGetD r "employee_count".data
  if v ≠ [] then ["Employees: ".data ++ translate_text v] else []

/-- The "Business Metrics" section. -/
def bizSections (r : RawRecord) : List DetailSection :=
  let items := businessItems r
  if items ≠ [] then [⟨"Business Metrics".data, items⟩] else []

/-- The `contact_items` list of `run_scraper`: phone and email raw,
broker fields translated, each line only for a truthy field. -/
def contactItems (r : RawRecord) : List Str :=
  (let v := rawGetD r "phone".data
   if v ≠ [] then ["Phone: ".data ++ v] else []) ++
  (let v := rawGetD r "email".data
   if v ≠ [] then ["Email: ".data ++ v] else []) ++
  (let v := rawGetD r "broker_name".data
   if v ≠ [] then ["Broker: ".data ++ translate_text v] else []) ++
  (let v := rawGetD r "broker_company".data
   if v ≠ [] then ["Broker Company: ".data ++ translate_text v] else [])

/-- The "Contact Information" section. -/
def contactSections (r : RawRecord) : List DetailSection :=
  let items := contactItems r
  if items ≠ [] then [⟨"Contact Information".data, items⟩] else []

/-- The per-item transformation of `run_scraper` (lines 150–253 of
`api.py`): the `transformed_item` dict together with its
`details_sections` list. -/
def transform (r : RawRecord) : NormalizedListing where
  title := translate_text (rawGetD r "title".data)
  company := translate_text
    (match rawGet r "broker_company".data with
     | some v => v
     | none => rawGetD r "broker_name".data)
  location := translate_text (rawGetD r "location".data)
  price := convert_currency (rawGetD r "price".data)
  category := translate_text (rawGetD r "category".data)
  industry := translate_text (rawGetD r "category".data)
  link := rawGetD r "url".data
  details := descSections r ++ scSections r ++ finSections r ++ bizSections r
    ++ contactSections r
  business_name := translate_text (rawGetD r "title".data)
  contact_name := translate_text (rawGetD r "broker_name".data)
  phone_number :=
    match rawGet r "phone".data with
    | some v => v
    | none => "Contact via website".data

/-- The deduplication loop of `run_scraper`: `st` and `sl` are the
`seen_titles` and `seen_links` sets (modelled as lists queried by
membership); an item is kept only if neither its title nor its link has
been seen, and then both are recorded. -/
def dedupeAux : List NormalizedListing → List Str → List Str → List NormalizedListing
  | [], _, _ => []
  | x :: xs, st, sl =>
    if x.title ∈ st ∨ x.link ∈ sl then dedupeAux xs st sl
    else x :: dedupeAux xs (x.title :: st) (x.link :: sl)

/-- The full "Remove duplicates based on title and link" pass
(lines 255–270 of `api.py`). -/
def dedupe (l : List NormalizedListing) : List NormalizedListing :=
  dedupeAux l [] []



/-- Stated from the spec sentence for the capitalization step
("capitalize only the first character of the resulting string; leave the
rest as-is"), for comparison with the code's `pyCapitalize`. -/
def capFirstOnlySpec : Str → Str
  | [] => []
  | c :: cs => pyUpperChar c :: cs

/-- The translator as the spec describes it: identical to
`translate_text` except that the final step leaves everything after the
first character unchanged. -/
def translateSpecLeaveRest (t : Str) : Str :=
  if t = [] then t
  else capFirstOnlySpec (applySubs TRANSLATIONS (t.map pyLowerChar))

/-- The converter as the claim describes it: identical to
`convert_currency` except that the concatenated runs have **all**
whitespace characters removed before parsing, not only the space
character. -/
def convertSpecStripAll (s : Str) : Str :=
  if s = [] then s
  else if findRuns s = [] then s
  else
    match pyInt? ((findRuns s).flatten.filter (fun c => !pyIsSpace c)) with
    | none => s
    | some price => '$' :: commaFmt (pyRoundDiv (19 * price) 200)

/-- A list of listings is stable for the deduplicator started with seen
sets `st`, `sl`: scanning it in order, no title or link repeats one of
the seen sets or an earlier element. -/
def goodFrom : List NormalizedListing → List Str → List Str → Prop
  | [], _, _ => True
  | x :: xs, st, sl => x.title ∉ st ∧ x.link ∉ sl ∧ goodFrom xs (x.title :: st) (x.link :: sl)

/-! ### Helper lemmas -/

theorem dedupeAux_sublist (l : List NormalizedListing) (st sl : List Str) :
    (dedupeAux l st sl).Sublist l := by
  induction l generalizing st sl with
  | nil => simp [dedupeAux]
  | cons x xs ih =>
    simp only [dedupeAux]
    split
    · exact (ih st sl).cons x
    · exact (ih _ _).cons₂ x

theorem dedupeAux_congr (l : List NormalizedListing) (st st' sl sl' : List Str)
    (ht : ∀ a, a ∈ st ↔ a ∈ st') (hl : ∀ a, a ∈ sl ↔ a ∈ sl') :
    dedupeAux l st sl = dedupeAux l st' sl' := by
  induction l generalizing st st' sl sl' with
  | nil => rfl
  | cons x xs ih =>
    simp only [dedupeAux]
    by_cases h : x.title ∈ st ∨ x.link ∈ sl
    · rw [if_pos h, if_pos (by rw [← ht, ← hl]; exact h)]
      exact ih st st' sl sl' ht hl
    · rw [if_neg h, if_neg (by rw [← ht, ← hl]; exact h)]
      exact congrArg (x :: ·) (ih _ _ _ _
        (fun a => by simp [List.mem_cons, ht a])
        (fun a => by simp [List.mem_cons, hl a]))

theorem dedupeAux_concat (l : List NormalizedListing) (x : NormalizedListing)
    (st sl : List Str) :
    dedupeAux (l ++ [x]) st sl =
      dedupeAux l st sl ++
        (if x.title ∈ (dedupeAux l st sl).map NormalizedListing.title ++ st
            ∨ x.link ∈ (dedupeAux l st sl).map NormalizedListing.link ++ sl
         then [] else [x]) := by
  induction l generalizing st sl with
  | nil => simp [dedupeAux]
  | cons y ys ih =>
    by_cases h : y.title ∈ st ∨ y.link ∈ sl
    · simp only [List.cons_append, dedupeAux, if_pos h]
      exact ih st sl
    · simp only [List.cons_append, dedupeAux, if_neg h, List.append_eq]
      rw [ih]
      refine congrArg (y :: ·) (congrArg (dedupeAux ys (y.title :: st) (y.link :: sl) ++ ·) ?_)
      refine if_congr ?_ rfl rfl
      simp only [List.map_cons, List.mem_append, List.mem_cons]
      tauto

theorem dedupeAux_goodFrom (l : List NormalizedListing) (st sl : List Str) :
    goodFrom (dedupeAux l st sl) st sl := by
  induction l generalizing st sl with
  | nil => trivial
  | cons x xs ih =>
    simp only [dedupeAux]
    by_cases h : x.title ∈ st ∨ x.link ∈ sl
    · rw [if_pos h]; exact ih st sl
    · rw [if_neg h]
      push_neg at h
      exact ⟨h.1, h.2, ih _ _⟩

theorem goodFrom_dedupeAux_eq (l : List NormalizedListing) (st sl : List Str)
    (h : goodFrom l st sl) : dedupeAux l st sl = l := by
  induction l generalizing st sl with
  | nil => rfl
  | cons x xs ih =>
    obtain ⟨h1, h2, h3⟩ := h
    simp only [dedupeAux]
    rw [if_neg (by tauto)]
    exact congrArg (x :: ·) (ih _ _ h3)

/-! ### Claims -/

/-- C1: the deduplicator drops a listing exactly when its title or its
link already occurs among the earlier kept listings (even when the other
key is new); in particular the second of two listings sharing a link but
not a title is dropped; the output is the input in order minus the
dropped entries (a sublist). -/
theorem dedupe_drop_iff_seen :
    ∀ (l : List NormalizedListing) (x : NormalizedListing),
      (dedupe (l ++ [x]) =
        dedupe l ++
          (if x.title ∈ (dedupe l).map NormalizedListing.title
              ∨ x.link ∈ (dedupe l).map NormalizedListing.link
           then [] else [x]))
      ∧ (dedupe l).Sublist l
      ∧ (∀ a b : NormalizedListing, a.link = b.link → a.title ≠ b.title →
           dedupe [a, b] = [a]) := by
  intro l x
  refine ⟨?_, dedupeAux_sublist l [] [], ?_⟩
  · have h := dedupeAux_concat l x [] []
    simpa [dedupe] using h
  · intro a b hl _
    simp [dedupe, dedupeAux, ← hl]

/-- Witness for C1 at a concrete input: two listings with the same link
and different titles; the second is dropped. -/
theorem dedupe_drop_iff_seen_witness :
    dedupe [⟨"t1".data, [], [], [], [], [], "L".data, [], [], [], []⟩,
            ⟨"t2".data, [], [], [], [], [], "L".data, [], [], [], []⟩]
      = [⟨"t1".data, [], [], [], [], [], "L".data, [], [], [], []⟩] :=
  (dedupe_drop_iff_seen [] ⟨[], [], [], [], [], [], [], [], [], [], []⟩).2.2
    _ _ rfl (by decide)

/-- C7: the deduplicator is idempotent. -/
theorem dedupe_idempotent : ∀ l : List NormalizedListing, dedupe (dedupe l) = dedupe l :=
  fun l => goodFrom_dedupeAux_eq _ _ _ (dedupeAux_goodFrom l [] [])

/-- C2 counterexample: at input `"i stockholm"`, the substitution table
produces `"i Stockholm"`, but the final `str.capitalize` lowercases the
`S` introduced after position 0, so the code's output differs from the
claim's "leave every character after the first as produced by the
substitutions" (modelled by `translateSpecLeaveRest`). -/
theorem translate_c2_counterexample :
    translate_text "i stockholm".data = "I stockholm".data ∧
    translateSpecLeaveRest "i stockholm".data = "I Stockholm".data ∧
    translate_text "i stockholm".data ≠ translateSpecLeaveRest "i stockholm".data :=
  ⟨by decide, by decide, by decide⟩

/-- C2 (amended): for non-empty input, `translate_text` lowercases the
input, applies the substitution table, then titlecases the first
character of the result and **lowercases** every character after it
(Python `str.capitalize`), rather than leaving them as produced by the
substitutions. -/
theorem translate_capitalizes_and_lowercases_rest :
    ∀ (t : Str) (c : Char) (cs : Str), t ≠ [] →
      applySubs TRANSLATIONS (t.map pyLowerChar) = c :: cs →
      translate_text t = pyUpperChar c :: cs.map pyLowerChar := by
  intro t c cs h h2
  rw [translate_text, if_neg h, h2, pyCapitalize]

/-- Witness for C2's amended theorem at input `"i stockholm"`. -/
theorem translate_capitalizes_and_lowercases_rest_witness :
    translate_text "i stockholm".data = "I stockholm".data := by
  rw [translate_capitalizes_and_lowercases_rest "i stockholm".data 'i' " Stockholm".data
        (by decide) (by decide)]
  decide

/-- C3: the transformer's output always has `industry` equal to
`category` (both are `translate_text(item.get('category', ''))`). -/
theorem transform_industry_eq_category :
    ∀ r : RawRecord, (transform r).industry = (transform r).category :=
  fun _ => rfl

/-- C4 counterexample: for input `"1\t5"` the claim's algorithm (strip
all whitespace from the extracted runs, modelled by
`convertSpecStripAll`) yields `"$1"`, but the code only removes space
characters, so `int` fails on the remaining tab and the input is
returned unchanged. -/
theorem convert_c4_counterexample :
    convert_currency ['1', '\t', '5'] = ['1', '\t', '5'] ∧
    convertSpecStripAll ['1', '\t', '5'] = "$1".data ∧
    convert_currency ['1', '\t', '5'] ≠ convertSpecStripAll ['1', '\t', '5'] :=
  ⟨by decide, by decide, by decide⟩

/-- C4 (amended): `convert_currency` extracts the maximal digit/whitespace
runs, concatenates them and removes the **space characters** (only
`' '`, per `.replace(' ', '')`); whenever `int` succeeds on the result
(value `n`), the output is `"$"` followed by round-half-to-even of
`n * 0.095 = 19 * n / 200` with thousands separators.  In particular
`convert_currency "1 500 000 kr" = "$142,500"` (see the witness). -/
theorem convert_success_formula :
    ∀ (s : Str) (n : Nat),
      pyInt? (pyReplace (findRuns s).flatten [' '] []) = some n →
      convert_currency s = '$' :: commaFmt (pyRoundDiv (19 * n) 200) := by
  intro s n h
  unfold convert_currency
  split_ifs with h1 h2
  · subst h1
    rw [show pyInt? (pyReplace (findRuns ([] : Str)).flatten [' '] []) = none from by decide] at h
    exact Option.noConfusion h
  · rw [h2] at h
    rw [show pyInt? (pyReplace ([] : List Str).flatten [' '] []) = none from by decide] at h
    exact Option.noConfusion h
  · rw [h]

/-- Witness for C4's amended theorem: the spec's own example input. -/
theorem convert_success_formula_witness :
    convert_currency "1 500 000 kr".data = "$142,500".data := by
  rw [convert_success_formula "1 500 000 kr".data 1500000 (by decide)]
  decide

/-- C5: whenever the input is empty, no digit/whitespace run exists, or
`int` fails on the cleaned extracted text (`ValueError`), the converter
returns its input unchanged (and, being a total function of the input,
never signals an error to the caller). -/
theorem convert_failure_unchanged :
    ∀ s : Str,
      (s = [] ∨ findRuns s = [] ∨
        pyInt? (pyReplace (findRuns s).flatten [' '] []) = none) →
      convert_currency s = s := by
  intro s h
  unfold convert_currency
  split_ifs with h1 h2
  · rfl
  · rfl
  · rcases h with h | h | h
    · exact absurd h h1
    · exact absurd h h2
    · rw [h]

/-- Witness for C5 at the spec's example `"no numbers here"` (runs exist
but consist of whitespace only, so `int` fails) and at `"abc"` (no run
at all). -/
theorem convert_failure_unchanged_witness :
    convert_currency "no numbers here".data = "no numbers here".data ∧
    convert_currency "abc".data = "abc".data :=
  ⟨convert_failure_unchanged _ (Or.inr (Or.inr (by decide))),
   convert_failure_unchanged _ (Or.inr (Or.inl (by decide)))⟩

theorem structuredSections_cons (k v : Str) (rest : List (Str × Str)) :
    structuredSections ((k, v) :: rest) =
      (if v ≠ [] ∧ 20 < (pyStrip v).length
       then [DetailSection.mk (sectionTitle k) [translate_text v]] else [])
        ++ structuredSections rest := by
  simp only [structuredSections, Bool.and_eq_true, decide_eq_true_eq, ne_eq]
  split <;> simp

theorem structuredSections_append (a b : List (Str × Str)) :
    structuredSections (a ++ b) = structuredSections a ++ structuredSections b := by
  induction a with
  | nil => rfl
  | cons kv rest ih =>
    obtain ⟨k, v⟩ := kv
    rw [List.cons_append, structuredSections_cons, structuredSections_cons, ih,
      List.append_assoc]

/-- C6 counterexample: a structured_content value of length 26 (so
length > 20) whose trimmed length is 1 produces **no** details section —
the code tests the trimmed length, the claim's second half tests the raw
length. -/
theorem structured_c6_counterexample :
    20 < (List.replicate 25 ' ' ++ ['a'] : Str).length ∧
    (transform ⟨[], some [("extra".data, List.replicate 25 ' ' ++ ['a'])], none⟩).details
      = [] :=
  ⟨by decide, by decide⟩

/-- C6 (amended): a structured_content entry yields a details section
(its key mapped to its label, its value translated, in place) exactly
when its value is non-empty and its **trimmed** length exceeds 20;
otherwise it contributes nothing.  The transformer's details list embeds
these sections between the description section and the financial ones. -/
theorem structured_section_criterion :
    ∀ (r : RawRecord) (kvs pre post : List (Str × Str)) (k v : Str),
      r.structured_content = some kvs → kvs = pre ++ (k, v) :: post →
      ((¬(v ≠ [] ∧ 20 < (pyStrip v).length)) →
          structuredSections kvs = structuredSections (pre ++ post))
      ∧ ((v ≠ [] ∧ 20 < (pyStrip v).length) →
          structuredSections kvs =
            structuredSections pre
              ++ DetailSection.mk (sectionTitle k) [translate_text v]
              :: structuredSections post)
      ∧ (transform r).details =
          descSections r ++ structuredSections kvs ++ finSections r ++ bizSections r
            ++ contactSections r := by
  intro r kvs pre post k v hsc hkvs
  subst hkvs
  refine ⟨?_, ?_, ?_⟩
  · intro h
    rw [structuredSections_append, structuredSections_append, structuredSections_cons,
      if_neg h, List.nil_append]
  · intro h
    rw [structuredSections_append, structuredSections_cons, if_pos h, List.singleton_append]
  · simp [transform, scSections, hsc]

/-- Witness for C6's amended theorem: a 21-character value with no
surrounding whitespace yields exactly its one section. -/
theorem structured_section_criterion_witness :
    structuredSections [("extra".data, "abcdefghijklmnopqrstu".data)] =
      structuredSections []
        ++ DetailSection.mk (sectionTitle "extra".data)
             [translate_text "abcdefghijklmnopqrstu".data]
        :: structuredSections [] :=
  (structured_section_criterion
      ⟨[], some [("extra".data, "abcdefghijklmnopqrstu".data)], none⟩
      _ [] [] _ _ rfl rfl).2.1 ⟨by decide, by decide⟩

/-- C8: the transformer is a total function of the raw record — it
yields a `NormalizedListing` for every combination of missing, empty or
present fields (every lookup is `get` with a default) — and on the
record with zero fields all fields default: empty strings, no details
sections, and the `"Contact via website"` phone fallback. -/
theorem transform_total :
    (∀ r : RawRecord, ∃ l : NormalizedListing, transform r = l) ∧
    transform ⟨[], none, none⟩ =
      ⟨[], [], [], [], [], [], [], [], [], [], "Contact via website".data⟩ :=
  ⟨fun r => ⟨transform r, rfl⟩, by decide⟩

/-- C9: the substitution table is applied as literal substring
replacements chained in table order — appending a rule to the table
means running it on the text produced by all earlier rules — and the
known phrase translates as `"företag till salu" → "Company for sale"`
(capitalization of the first character included). -/
theorem translate_table_chaining :
    (∀ (tbl : List (Str × Str)) (p : Str × Str) (s : Str),
        applySubs (tbl ++ [p]) s = pyReplace (applySubs tbl s) p.1 p.2) ∧
    translate_text "företag till salu".data = "Company for sale".data :=
  ⟨fun tbl p s => by simp [applySubs, List.foldl_append], by decide⟩

theorem take_append_of_length_le (a v : Str) (ha : 7 ≤ a.length) :
    (a ++ v).take 7 = a.take 7 := by
  rw [List.take_append_eq_append_take, Nat.sub_eq_zero_of_le ha, List.take_zero,
    List.append_nil]

/-- C10: when the `phone` key is present but maps to the empty string,
the output's `phone_number` is the empty string (the
`"Contact via website"` fallback fires only when the key is absent) and
the contact-information lines contain no `"Phone: "` line; when the key
is absent, the fallback literal is used. -/
theorem phone_empty_no_fallback :
    (∀ r : RawRecord, rawGet r "phone".data = some [] →
       (transform r).phone_number = [] ∧
       ∀ it ∈ contactItems r, it.take 7 ≠ "Phone: ".data)
    ∧ (∀ r : RawRecord, rawGet r "phone".data = none →
       (transform r).phone_number = "Contact via website".data) := by
  constructor
  · intro r h
    constructor
    · simp [transform, h]
    · intro it hit
      have hd : rawGetD r "phone".data = [] := by simp [rawGetD, h]
      simp only [contactItems, hd, ne_eq] at hit
      rw [if_neg (by simp), List.nil_append] at hit
      rcases List.mem_append.1 hit with h1 | h1
      · rcases List.mem_append.1 h1 with h2 | h2
        · split at h2
          · rw [List.mem_singleton] at h2
            subst h2
            rw [take_append_of_length_le _ _ (by decide)]
            decide
          · exact absurd h2 (List.not_mem_nil it)
        · split at h2
          · rw [List.mem_singleton] at h2
            subst h2
            rw [take_append_of_length_le _ _ (by decide)]
            decide
          · exact absurd h2 (List.not_mem_nil it)
      · split at h1
        · rw [List.mem_singleton] at h1
          subst h1
          rw [take_append_of_length_le _ _ (by decide)]
          decide
        · exact absurd h1 (List.not_mem_nil it)
  · intro r h
    simp [transform, h]

/-- Witness for C10: a record with `phone` present but empty (and an
email, so the contact section is non-trivial), and the zero-field
record for the absent case. -/
theorem phone_empty_no_fallback_witness :
    (transform ⟨[("phone".data, []), ("email".data, "a@b".data)], none, none⟩).phone_number
        = []
    ∧ (transform ⟨[], none, none⟩).phone_number = "Contact via website".data :=
  ⟨(phone_empty_no_fallback.1 _ (by decide)).1,
   phone_empty_no_fallback.2 _ (by decide)⟩
